import Mathlib

/-!
Verification of the yaytb download-orchestration core.

This file gives a shallow embedding, in Lean, of the JavaScript sources of the
repository: the probe parser, format selector, download executor and the human
size formatter of src/downloader.js, the session store of src/session-store.js,
the bounded-concurrency queue of src/queue.js, and the session-mutating bot
handlers (URL submission, kind choice, format choice, cancel, job settlement)
of the bot entry file.  JavaScript numbers are modelled as rationals, nullable
values as Option, fallible operations as Except, and external effects
(subprocesses, the filesystem, the Telegram transport) as explicit environment
parameters.  Theorems about the embedding settle the specification claims.
-/

/-! ## JavaScript semantics helpers -/

/-- JS Math.round: round half toward positive infinity. -/
def jsRound (q : ℚ) : ℤ := ⌊q + 1/2⌋

/-- Truthiness filter for a nullable JS number: null and 0 are falsy. -/
def truthyQ : Option ℚ → Option ℚ
  | some v => if v = 0 then none else some v
  | none => none

/-- JS a || b on nullable numbers: b when a is null or 0. -/
def jsOrQ (a : Option ℚ) (b : Option ℚ) : Option ℚ :=
  match truthyQ a with
  | some v => some v
  | none => b

/-- Truthiness filter for a nullable JS number holding a Nat: null and 0 are falsy. -/
def truthyN : Option ℕ → Option ℕ
  | some v => if v = 0 then none else some v
  | none => none

/-- JS a || b on nullable Nats. -/
def jsOrN (a : Option ℕ) (b : Option ℕ) : Option ℕ :=
  match truthyN a with
  | some v => some v
  | none => b

/-- JS a || b where a is a nullable string (empty string is falsy) and b a string. -/
def jsOrStr (a : Option String) (b : String) : String :=
  match a with
  | some s => if s = "" then b else s
  | none => b

/-- ASCII lowercase of a string (JS String.prototype.toLowerCase on ASCII data). -/
def toLowerStr (s : String) : String := String.mk (s.toList.map Char.toLower)

/-- Is the pattern a prefix of the text? -/
def prefixAt : List Char → List Char → Bool
  | [], _ => true
  | _ :: _, [] => false
  | p :: ps, c :: cs => p = c && prefixAt ps cs

/-- Does the pattern occur as a contiguous substring of the text? -/
def hasSubstr (pat : List Char) : List Char → Bool
  | [] => prefixAt pat []
  | c :: cs => prefixAt pat (c :: cs) || hasSubstr pat cs

/-- JS String.prototype.includes. -/
def containsStr (s sub : String) : Bool := hasSubstr sub.toList s.toList


/-- Split a character list at each separator character (JS String.split with a
single-character separator or class: empty pieces are kept). -/
def splitOnPredGo (p : Char → Bool) : List Char → List Char → List (List Char)
  | acc, [] => [acc.reverse]
  | acc, c :: cs =>
    if p c then acc.reverse :: splitOnPredGo p [] cs
    else splitOnPredGo p (c :: acc) cs

/-- String split on a character predicate, keeping empty pieces. -/
def splitStr (s : String) (p : Char → Bool) : List String :=
  (splitOnPredGo p [] s.toList).map String.mk

/-- Leading and trailing whitespace removed (JS String.prototype.trim). -/
def trimStr (s : String) : String :=
  String.mk (((s.toList.dropWhile Char.isWhitespace).reverse.dropWhile Char.isWhitespace).reverse)

/-- Trailing whitespace removed (JS String.prototype.trimEnd). -/
def trimEndStr (s : String) : String :=
  String.mk ((s.toList.reverse.dropWhile Char.isWhitespace).reverse)

/-- JS String.prototype.startsWith. -/
def startsWithStr (s pat : String) : Bool := prefixAt pat.toList s.toList

/-- JS String.prototype.endsWith. -/
def endsWithStr (s pat : String) : Bool := prefixAt pat.toList.reverse s.toList.reverse

/-- Array.prototype.join with a separator. -/
def joinWithSep (sep : String) : List String → String
  | [] => ""
  | [x] => x
  | x :: y :: rest => x ++ sep ++ joinWithSep sep (y :: rest)

/-- Case-insensitive match of a (lowercase) pattern at the head of the text,
returning the rest of the text on success. -/
def ciDropGo : List Char → List Char → Option (List Char)
  | [], cs => some cs
  | _ :: _, [] => none
  | p :: ps, c :: cs => if c.toLower = p then ciDropGo ps cs else none

/-- Case-insensitive literal match of a pattern string; pattern given lowercase. -/
def ciDrop (pat : String) (cs : List Char) : Option (List Char) := ciDropGo pat.toList cs

/-- JS \w word character: [A-Za-z0-9_]. -/
def isWordChar (c : Char) : Bool := c.isAlphanum || c = '_'

/-- A position is a word boundary on its right side: end of string or non-word char. -/
def boundaryOk : List Char → Bool
  | [] => true
  | c :: _ => !isWordChar c

/-- Decimal value of a digit run (JS parseInt of a digit-only capture). -/
def digitsToNat (ds : List Char) : ℕ := ds.foldl (fun n c => 10 * n + (c.toNat - 48)) 0

/-- Match exactly k digits at the head, returning their value and the rest. -/
def takeKDigits (cs : List Char) (k : ℕ) : Option (ℕ × List Char) :=
  let ds := cs.take k
  if ds.length = k ∧ ds.all Char.isDigit then some (digitsToNat ds, cs.drop k) else none

/-- Split a string on /\r?\n/ (JS String.prototype.split with that regex). -/
def splitLines (s : String) : List String :=
  (splitStr s (· = '\n')).map fun part =>
    if endsWithStr part "\r" then String.mk part.toList.dropLast else part

/-- Replace each maximal run of characters satisfying p by the single char r
(JS String.prototype.replace with a /[...]+/g pattern).  The flag records
whether the previous character was part of a run. -/
def replaceRunsGo (p : Char → Bool) (r : Char) : Bool → List Char → List Char
  | _, [] => []
  | inRun, c :: cs =>
    if p c then (if inRun then replaceRunsGo p r true cs else r :: replaceRunsGo p r true cs)
    else c :: replaceRunsGo p r false cs

/-- Replace runs of p-characters by r throughout a string. -/
def replaceRuns (p : Char → Bool) (r : Char) (s : String) : String :=
  String.mk (replaceRunsGo p r false s.toList)

/-- JS Number.prototype.toFixed for nonnegative rationals (digits 0 or 1 used
by the code): round half up at the requested precision and render. -/
def toFixedQ (v : ℚ) (digits : ℕ) : String :=
  let scaled : ℤ := jsRound (v * (10 : ℚ) ^ digits)
  if digits = 0 then toString scaled
  else toString (scaled / 10) ++ "." ++ toString (scaled % 10)

/-! ## Regex scanners used by src/downloader.js and the bot entry file.
Each scanner follows the JS regex engine: leftmost match position wins, and
greedy quantifiers backtrack from the longest repetition. -/

/-- Match /(\d{3,4})[pP]/ at the head of the text (greedy: 4 digits, then 3). -/
def matchHeightP (cs : List Char) : Option ℕ :=
  let tryLen : ℕ → Option ℕ := fun k =>
    match takeKDigits cs k with
    | some (h, rest) =>
      match rest with
      | c :: _ => if c = 'p' ∨ c = 'P' then some h else none
      | [] => none
    | none => none
  match tryLen 4 with
  | some h => some h
  | none => tryLen 3

/-- Scan for the first match of /(\d{3,4})[pP]/. -/
def scanHeightP : List Char → Option ℕ
  | [] => none
  | c :: cs =>
    match matchHeightP (c :: cs) with
    | some h => some h
    | none => scanHeightP cs

/-- After the literal x of /\b(\d{3,4})x(\d{3,4})\b/: match the second capture
and the closing word boundary, returning that capture (the height). -/
def matchWxHTail (rest : List Char) : Option ℕ :=
  let tryLen : ℕ → Option ℕ := fun k =>
    match takeKDigits rest k with
    | some (h, rest2) => if boundaryOk rest2 then some h else none
    | none => none
  match tryLen 4 with
  | some h => some h
  | none => tryLen 3

/-- Match /(\d{3,4})x(\d{3,4})\b/ at the head (the leading \b is the caller's). -/
def matchWxH (cs : List Char) : Option ℕ :=
  let tryLen : ℕ → Option ℕ := fun k =>
    match takeKDigits cs k with
    | some (_, rest) =>
      match rest with
      | 'x' :: rest2 => matchWxHTail rest2
      | _ => none
    | none => none
  match tryLen 4 with
  | some h => some h
  | none => tryLen 3

/-- Scan for /\b(\d{3,4})x(\d{3,4})\b/, tracking the previous character for
the leading word boundary; returns the second capture. -/
def scanWxH : Option Char → List Char → Option ℕ
  | _, [] => none
  | prev, c :: cs =>
    let atBoundary := match prev with
      | none => true
      | some p => !isWordChar p
    match (if atBoundary then matchWxH (c :: cs) else none) with
    | some h => some h
    | none => scanWxH (some c) cs

/-- src/downloader.js parseResolutionHeight: height from a HEIGHTp token, else
the second component of a WxH token, else 0. -/
def parseResolutionHeight (value : String) : ℕ :=
  match scanHeightP value.toList with
  | some h => h
  | none =>
    match scanWxH none value.toList with
    | some h => h
    | none => 0

/-- Unit alternation of /(\d{2,4})\s*(?:kbps|kb|k\b)/i after the digits and
whitespace: kbps, else kb, else k at a word boundary. -/
def bitrateUnitOk (cs : List Char) : Bool :=
  match ciDrop "kbps" cs with
  | some _ => true
  | none =>
    match ciDrop "kb" cs with
    | some _ => true
    | none =>
      match cs with
      | c :: rest => (c = 'k' ∨ c = 'K') && boundaryOk rest
      | [] => false

/-- Match /(\d{2,4})\s*(?:kbps|kb|k\b)/i at the head (digits greedy 4,3,2). -/
def matchBitrate (cs : List Char) : Option ℕ :=
  let tryLen : ℕ → Option ℕ := fun k =>
    match takeKDigits cs k with
    | some (n, rest) =>
      if bitrateUnitOk (rest.dropWhile (·.isWhitespace)) then some n else none
    | none => none
  match tryLen 4 with
  | some n => some n
  | none =>
    match tryLen 3 with
    | some n => some n
    | none => tryLen 2

/-- Scan for the first match of /(\d{2,4})\s*(?:kbps|kb|k\b)/i. -/
def scanBitrate : List Char → Option ℕ
  | [] => none
  | c :: cs =>
    match matchBitrate (c :: cs) with
    | some n => some n
    | none => scanBitrate cs

/-- src/downloader.js extractBitrateFromNote. -/
def extractBitrateFromNote (note : String) : Option ℕ := scanBitrate note.toList

/-- /\ben\b/ on a string: an en token delimited by word boundaries.  The flag
says whether the previous character admits a boundary (start of string does). -/
def containsWordEnGo : Bool → List Char → Bool
  | _, [] => false
  | prevOk, c :: rest =>
    (prevOk && c = 'e' &&
      (match rest with
       | c2 :: rest2 => c2 = 'n' && boundaryOk rest2
       | [] => false))
    || containsWordEnGo (!isWordChar c) rest

/-- /(english|\ben\b|en-us|en-gb)/.test on the (already lowercased) note. -/
def englishNoteTest (note : String) : Bool :=
  containsStr note "english" || containsWordEnGo true note.toList
    || containsStr note "en-us" || containsStr note "en-gb"

/-- Size units of /(~?)(\d+(?:\.\d+)?)\s*(KiB|MiB|GiB|KB|MB|GB)/i in the
regex's alternation order, with (base, power) conversion data. -/
def sizeUnits : List (String × ℕ × ℕ) :=
  [("kib", 1024, 1), ("mib", 1024, 2), ("gib", 1024, 3),
   ("kb", 1000, 1), ("mb", 1000, 2), ("gb", 1000, 3)]

/-- Try the unit alternation at the head of the text. -/
def matchSizeUnitGo : List (String × ℕ × ℕ) → List Char → Option (ℕ × ℕ)
  | [], _ => none
  | (u, base, pow) :: rest, cs =>
    match ciDrop u cs with
    | some _ => some (base, pow)
    | none => matchSizeUnitGo rest cs

/-- Match /(~?)(\d+(?:\.\d+)?)\s*(KiB|MiB|GiB|KB|MB|GB)/i at the head,
returning the value scaled by the unit (before Math.round). -/
def matchSizeAt (cs0 : List Char) : Option ℚ :=
  let cs := match cs0 with
    | '~' :: rest => rest
    | _ => cs0
  let ds := cs.takeWhile Char.isDigit
  let rest := cs.dropWhile Char.isDigit
  if ds.isEmpty then none
  else
    let intPart : ℚ := digitsToNat ds
    let tryUnit : ℚ → List Char → Option ℚ := fun v r =>
      match matchSizeUnitGo sizeUnits (r.dropWhile (·.isWhitespace)) with
      | some (base, pow) => some (v * (base : ℚ) ^ pow)
      | none => none
    let withFrac : Option ℚ :=
      match rest with
      | '.' :: rest2 =>
        let fs := rest2.takeWhile Char.isDigit
        let rest3 := rest2.dropWhile Char.isDigit
        if fs.isEmpty then none
        else tryUnit (intPart + (digitsToNat fs : ℚ) / (10 : ℚ) ^ fs.length) rest3
      | _ => none
    match withFrac with
    | some v => some v
    | none => tryUnit intPart rest

/-- Scan for the first match of the size pattern. -/
def scanSize : List Char → Option ℚ
  | [] => none
  | c :: cs =>
    match matchSizeAt (c :: cs) with
    | some v => some v
    | none => scanSize cs

/-- src/downloader.js parseSizeFromNote: first human-readable size token in the
note, converted to bytes and rounded. -/
def parseSizeFromNote (note : String) : Option ℚ :=
  (scanSize note.toList).map fun v => ((jsRound v : ℤ) : ℚ)

/-- After http at a match position of /(https?:\/\/[^\s]+)/i: consume the
optional s (greedy, with backtracking) and the ://; returns the number of
scheme characters consumed after http together with the remainder. -/
def urlAfterScheme (r1 : List Char) : Option (ℕ × List Char) :=
  let withS : Option (ℕ × List Char) :=
    match r1 with
    | c :: rest =>
      if c = 's' ∨ c = 'S' then (ciDrop "://" rest).map (fun r => (4, r)) else none
    | [] => none
  match withS with
  | some r => some r
  | none => (ciDrop "://" r1).map (fun r => (3, r))

/-- Match /(https?:\/\/[^\s]+)/i at the head, returning the matched length. -/
def matchUrlAt (cs : List Char) : Option ℕ :=
  match ciDrop "http" cs with
  | none => none
  | some r1 =>
    match urlAfterScheme r1 with
    | none => none
    | some (schemeLen, r2) =>
      let body := r2.takeWhile (fun c => !c.isWhitespace)
      if body.isEmpty then none else some (4 + schemeLen + body.length)

/-- Scan for the first URL match, returning the matched source text. -/
def scanUrl : List Char → Option String
  | [] => none
  | c :: cs =>
    match matchUrlAt (c :: cs) with
    | some len => some (String.mk ((c :: cs).take len))
    | none => scanUrl cs

/-- Bot entry file sanitizeUrl: first http(s) URL in the message text. -/
def sanitizeUrl (text : String) : Option String := scanUrl text.toList

/-- Characters illegal in file names per src/downloader.js sanitizeFileName. -/
def isIllegalFileChar (c : Char) : Bool :=
  c = '\\' || c = '/' || c = ':' || c = '*' || c = '?' || c = '"' ||
  c = '<' || c = '>' || c = '|'

/-- src/downloader.js sanitizeFileName: collapse illegal characters to _,
collapse whitespace, trim, cap at 180 chars, default output. -/
def sanitizeFileName (name : Option String) : String :=
  match name with
  | none => "output"
  | some n =>
    if n = "" then "output"
    else
      let s1 := replaceRuns isIllegalFileChar '_' n
      let s2 := replaceRuns Char.isWhitespace ' ' s1
      let s3 := trimStr s2
      let s4 := String.mk (s3.toList.take 180)
      if s4 = "" then "output" else s4

/-- Index of the last dot of a file name, when that dot yields an extension
(node path.parse: a dot at position 0 starts a dotfile, not an extension). -/
def lastDotIdx (cs : List Char) : Option ℕ :=
  let afterDot := (cs.reverse.takeWhile (· ≠ '.')).length
  if cs.contains '.' ∧ cs.length - afterDot - 1 ≠ 0 then
    some (cs.length - afterDot - 1)
  else none

/-- node path.parse(...).name: base name without the extension. -/
def pathName (file : String) : String :=
  match lastDotIdx file.toList with
  | some i => String.mk (file.toList.take i)
  | none => file

/-- node path.parse(...).ext: from the last dot on, empty when there is no dot
or the only dot leads the name (dotfiles have no extension). -/
def pathExt (file : String) : String :=
  match lastDotIdx file.toList with
  | some i => String.mk (file.toList.drop i)
  | none => ""

/-! ## src/downloader.js: probe parser and format selector data model -/

/-- Media kind of a format (the type field computed by classifyFormat). -/
inductive MediaKind where
  | audio
  | video
  deriving DecidableEq

/-- One entry of the JSON metadata document's formats array (the fields the
code reads: format_id, abr, tbr, height, filesize, filesize_approx). -/
structure Meta where
  format_id : String := ""
  abr : Option ℚ := none
  tbr : Option ℚ := none
  height : Option ℕ := none
  filesize : Option ℚ := none
  filesize_approx : Option ℚ := none
  deriving DecidableEq

/-- A line of the textual format listing, as parsed by parseFormatList. -/
structure ParsedEntry where
  id : String
  extension : String
  resolution : String
  note : String
  raw : String
  deriving DecidableEq

/-- A structured format record as built by listFormats. -/
structure Format where
  id : String
  extension : String
  resolution : String
  note : String
  approxSize : Option ℚ
  type : MediaKind
  raw : String
  meta : Option Meta
  deriving DecidableEq

/-- A format selector output entry: the input record spread together with the
derived size estimate, display label and target file name. -/
structure SelectedFormat extends Format where
  estimatedSizeBytes : Option ℚ
  displayLabel : String
  targetFileName : String
  deriving DecidableEq

/-- The JSON metadata document (the fields the code reads). -/
structure Info where
  title : Option String := none
  webpage_url : Option String := none
  duration : Option ℚ := none
  formats : Option (List Meta) := none
  deriving DecidableEq

/-- listFormats' return value. -/
structure ProbeResult where
  title : Option String
  webpageUrl : Option String
  durationSeconds : Option ℚ
  formats : List Format
  deriving DecidableEq

/-! ## src/downloader.js: probe parser -/

/-- Is the trimmed line a separator rule, /^[-=]+$/ ? -/
def isRuleLine (cs : List Char) : Bool :=
  !cs.isEmpty && cs.all (fun c => c = '-' || c = '=')

/-- Does the trimmed line start with a column-header word, /^(id|format)\b/i ? -/
def isHeaderLine (cs : List Char) : Bool :=
  (match ciDrop "id" cs with
   | some rest => boundaryOk rest
   | none => false)
  || (match ciDrop "format" cs with
      | some rest => boundaryOk rest
      | none => false)

/-- Parse one line of the textual format listing; none when the line is
skipped.  Mirrors the loop body of parseFormatList. -/
def parseFormatLine (line : String) : Option ParsedEntry :=
  if line = "" ∨ trimStr line = "" then none
  else
    let trimmed := trimEndStr line
    if isRuleLine trimmed.toList ∨ isHeaderLine trimmed.toList then none
    else
      let segments := (splitStr trimmed (· = '|')).map trimStr
      match segments with
      | [] => none
      | left :: rest =>
        if left = "" then none
        else
          let parts := (splitStr left Char.isWhitespace).filter (· ≠ "")
          if parts.length < 2 then none
          else
            match parts with
            | [] => none
            | formatId :: afterId =>
              if formatId = "" ∨ containsStr (toLowerStr trimmed) "pass" then none
              else
                let extension := (afterId.head?).getD ""
                let resolution := trimStr (joinWithSep " " (afterId.drop 1))
                let note := joinWithSep " | " (rest.filter (· ≠ ""))
                some { id := formatId, extension := extension,
                       resolution := resolution, note := note, raw := trimmed }

/-- src/downloader.js parseFormatList. -/
def parseFormatList (output : String) : List ParsedEntry :=
  (splitLines output).filterMap parseFormatLine

/-- src/downloader.js classifyFormat. -/
def classifyFormat (entry : ParsedEntry) : MediaKind :=
  let resolution := toLowerStr entry.resolution
  let note := toLowerStr entry.note
  let id := toLowerStr entry.id
  if containsStr resolution "audio only" || containsStr note "audio only" ||
      containsStr id "aud" then
    MediaKind.audio
  else MediaKind.video

/-- The Map built by listFormats from info.formats keyed by format_id; a JS
Map keeps the last value set for a key, hence the reversed search. -/
def formatMapGet (entries : List Meta) (id : String) : Option Meta :=
  ((entries.filter (fun m => m.format_id ≠ "")).reverse).find? (fun m => m.format_id = id)

/-- src/downloader.js computeApproxSize: sum the exact sizes of the +-joined
id components from the metadata map, else fall back to the note's size token. -/
def computeApproxSize (entry : ParsedEntry) (entries : List Meta) : Option ℚ :=
  let parts := splitStr entry.id (· = '+')
  let totalAndHas := parts.foldl
    (fun (acc : ℚ × Bool) part =>
      match formatMapGet entries part with
      | some info =>
        match info.filesize.orElse (fun _ => info.filesize_approx) with
        | some sizeCandidate =>
          if sizeCandidate ≠ 0 then (acc.1 + sizeCandidate, true) else acc
        | none => acc
      | none => acc)
    ((0 : ℚ), false)
  if totalAndHas.2 then some totalAndHas.1 else parseSizeFromNote entry.note

/-! ## src/downloader.js: human size formatter -/

/-- The while loop of formatBytes, structured on its fuel 4 - index: divide by
1024 while the value is at least 1024 and a larger unit remains.  Positive
fuel is exactly index < 4 (index never exceeds units.length - 1 = 4). -/
def formatBytesLoop : ℕ → ℚ → ℕ → ℚ × ℕ
  | 0, value, index => (value, index)
  | fuel + 1, value, index =>
    if 1024 ≤ value then formatBytesLoop fuel (value / 1024) (index + 1)
    else (value, index)

/-- The while loop of formatBytes from a given start index. -/
def formatBytesGo (value : ℚ) (index : ℕ) : ℚ × ℕ :=
  formatBytesLoop (4 - index) value index

/-- The units array of formatBytes. -/
def sizeUnitNames : List String := ["B", "KB", "MB", "GB", "TB"]

/-- src/downloader.js formatBytes.  null for a falsy byte count; otherwise the
scaled value rendered with 0 decimals when it is at least 10 or at the byte
scale, 1 decimal otherwise, followed by the unit. -/
def formatBytes (bytes : ℚ) : Option String :=
  if bytes = 0 then none
  else
    let vi := formatBytesGo bytes 0
    some (toFixedQ vi.1 (if 10 ≤ vi.1 ∨ vi.2 = 0 then 0 else 1) ++
      sizeUnitNames.getD vi.2 "TB")

/-! ## src/downloader.js: format selector -/

/-- src/downloader.js nearestAudioBitrate: snap to the nearest preset (the
reduce keeps the earlier preset on ties); null on a falsy input. -/
def nearestAudioBitrate (kbps : ℤ) : Option ℕ :=
  if kbps = 0 then none
  else some ([96, 128, 160, 192, 224, 256, 320].foldl
    (fun (previous current : ℕ) =>
      if (current - kbps).natAbs < (previous - kbps).natAbs then current else previous)
    64)

/-- src/downloader.js estimateAudioSize. -/
def estimateAudioSize (durationSeconds : Option ℚ) (bitrateKbps : ℕ) : Option ℚ :=
  match truthyQ durationSeconds with
  | none => none
  | some d =>
    if bitrateKbps = 0 then none
    else some ((jsRound (d * bitrateKbps * 1000 / 8) : ℤ) : ℚ)

/-- src/downloader.js determineAudioBitrateKbps: declared abr, else tbr, else
the note's bitrate token; rounded and snapped to the nearest preset. -/
def determineAudioBitrateKbps (format : Format) : Option ℕ :=
  match jsOrQ (format.meta.bind Meta.abr)
      (jsOrQ (format.meta.bind Meta.tbr) ((extractBitrateFromNote format.note).map (↑·))) with
  | none => none
  | some raw => nearestAudioBitrate (jsRound raw)

/-- src/downloader.js createAudioLabel. -/
def createAudioLabel (bitrateKbps : ℕ) (sizeBytes : Option ℚ) : String :=
  let bitrateText := if bitrateKbps ≠ 0 then s!"{bitrateKbps} kbps" else "MP3"
  let sizeText := match truthyQ sizeBytes with
    | some sz => " (~" ++ (formatBytes sz).getD "null" ++ ")"
    | none => ""
  trimStr ("MP3 " ++ bitrateText ++ sizeText)

/-- src/downloader.js createVideoLabel. -/
def createVideoLabel (height : Option ℕ) (sizeBytes : Option ℚ) : String :=
  let quality := match truthyN height with
    | some h => s!"{h}p"
    | none => "Video"
  let sizeText := match truthyQ sizeBytes with
    | some sz => " (~" ++ (formatBytes sz).getD "null" ++ ")"
    | none => ""
  trimStr ("MP4 " ++ quality ++ sizeText)

/-- src/downloader.js preferenceScore. -/
def preferenceScore (format : Format) (type : MediaKind) : ℚ :=
  let note := toLowerStr format.note
  let s1 : ℚ := if containsStr note "default" || containsStr note "original" then 10 else 0
  let s2 : ℚ := if englishNoteTest note then 5 else 0
  let s3 : ℚ :=
    if type = MediaKind.audio then
      min ((format.approxSize.getD 0) / (5 * 1024 * 1024)) 5
    else
      min ((parseResolutionHeight format.resolution : ℚ) / 200) 5
  s1 + s2 + s3

/-- The comparator key of the audio sort: declared abr, else tbr, else the
approximate size, else 0. -/
def audioSortKey (f : Format) : ℚ :=
  (jsOrQ (f.meta.bind Meta.abr) (jsOrQ (f.meta.bind Meta.tbr) f.approxSize)).getD 0

/-- Stable insertion of an element into a sorted list: the element goes after
every earlier element that may precede it (le b a).  Used to model the stable
Array.prototype.sort of JS; for the consistent key comparators of the code the
stable result is unique, so insertion sort is observationally identical. -/
def stableInsert (le : Format → Format → Bool) (a : Format) : List Format → List Format
  | [] => [a]
  | b :: rest => if le b a then b :: stableInsert le a rest else a :: b :: rest

/-- Stable sort by insertion (models Array.prototype.sort with a comparator). -/
def jsSort (le : Format → Format → Bool) : List Format → List Format
  | [] => []
  | a :: rest => stableInsert le a (jsSort le rest)

/-- The filter step of filterWellKnownFormats. -/
def keepFormat (type : MediaKind) (allowed : List String) (fmt : Format) : Bool :=
  fmt.type == type
  && allowed.contains (toLowerStr fmt.extension)
  && !(type == MediaKind.video
        && containsStr (toLowerStr fmt.note) "video only"
        && !containsStr fmt.id "+")

/-- The deduplication bucket key: for audio audio-PRESET (or audio-ID when no
bitrate is derivable), for video the resolution string (or the id when the
resolution is empty). -/
def bucketKey (type : MediaKind) (fmt : Format) : String :=
  match type with
  | MediaKind.audio =>
    "audio-" ++ (match determineAudioBitrateKbps fmt with
      | some k => toString k
      | none => fmt.id)
  | MediaKind.video => if fmt.resolution = "" then fmt.id else fmt.resolution

/-- On a bucket collision keep the candidate with the higher preference score;
ties go to the larger approximate size. -/
def dedupReplace (fmt existing : Format) (type : MediaKind) : Format :=
  let candidateScore := preferenceScore fmt type
  let existingScore := preferenceScore existing type
  if candidateScore > existingScore ∨
      (candidateScore = existingScore ∧ (fmt.approxSize.getD 0) > (existing.approxSize.getD 0)) then
    fmt
  else existing

/-- Linear lookup in the key-to-index table (a JS Map keyed by strings). -/
def lookupKey (k : String) : List (String × ℕ) → Option ℕ
  | [] => none
  | (k2, i) :: rest => if k2 = k then some i else lookupKey k rest

/-- The deduplication loop of filterWellKnownFormats over the sorted list,
carrying the deduped output and the key-to-index Map. -/
def dedupGo (type : MediaKind) : List Format → List Format → List (String × ℕ) → List Format
  | [], deduped, _ => deduped
  | fmt :: rest, deduped, keyToIndex =>
    let key := bucketKey type fmt
    match lookupKey key keyToIndex with
    | none => dedupGo type rest (deduped ++ [fmt]) (keyToIndex ++ [(key, deduped.length)])
    | some idxExisting =>
      let existing := deduped.getD idxExisting fmt
      dedupGo type rest (deduped.set idxExisting (dedupReplace fmt existing type)) keyToIndex

/-- The final map of filterWellKnownFormats: attach size estimate, display
label and target file name to one retained entry. -/
def decorateFormat (type : MediaKind) (durationSeconds : Option ℚ) (fmt : Format) :
    SelectedFormat :=
  match type with
  | MediaKind.audio =>
    let bitrateKbps := (determineAudioBitrateKbps fmt).getD 192
    let estimatedSize := jsOrQ (estimateAudioSize durationSeconds bitrateKbps) fmt.approxSize
    { toFormat := fmt,
      estimatedSizeBytes := truthyQ estimatedSize,
      displayLabel := createAudioLabel bitrateKbps (jsOrQ estimatedSize fmt.approxSize),
      targetFileName := fmt.id ++ "-audio" }
  | MediaKind.video =>
    let h1 := parseResolutionHeight fmt.resolution
    let height := (jsOrN (some h1) (fmt.meta.bind Meta.height)).getD 0
    { toFormat := fmt,
      estimatedSizeBytes := truthyQ fmt.approxSize,
      displayLabel := createVideoLabel (truthyN (some height)) fmt.approxSize,
      targetFileName := fmt.id ++ "-video" }

/-- src/downloader.js filterWellKnownFormats: filter to the requested kind and
allowed containers, sort descending, deduplicate by bucket key, truncate to 6
and decorate. -/
def filterWellKnownFormats (formats : List Format) (type : MediaKind)
    (durationSeconds : Option ℚ) : List SelectedFormat :=
  let allowedExtensions := match type with
    | MediaKind.audio => ["m4a", "mp3", "webm", "opus", "mp4", "ogg"]
    | MediaKind.video => ["mp4", "webm", "mkv"]
  let filtered := formats.filter (keepFormat type allowedExtensions)
  let sorted :=
    if type = MediaKind.audio then
      jsSort (fun a b => audioSortKey b ≤ audioSortKey a) filtered
    else
      jsSort (fun a b =>
        parseResolutionHeight b.resolution ≤ parseResolutionHeight a.resolution) filtered
  let deduped := dedupGo type sorted [] []
  (deduped.take 6).map (decorateFormat type durationSeconds)

/-- src/downloader.js getFormatsByType. -/
def getFormatsByType (formats : List Format) (type : MediaKind)
    (durationSeconds : Option ℚ) : List SelectedFormat :=
  filterWellKnownFormats formats type durationSeconds

/-! ## src/downloader.js: probe entry points -/

/-- The first nonblank line of the metadata subprocess's standard output. -/
def firstNonBlank (stdout : String) : Option String :=
  (((splitLines stdout).map trimStr).filter (· ≠ "")).head?

/-- src/downloader.js fetchInfo, after the subprocess succeeded: take the
first nonblank stdout line and JSON.parse it.  JSON.parse is the external
JSON library, passed in as a partial parsing function (none models a throw). -/
def fetchInfo (jsonParse : String → Option Info) (stdout : String) : Except String Info :=
  match firstNonBlank stdout with
  | none => Except.error "Unable to parse yt-dlp metadata output"
  | some line =>
    match jsonParse line with
    | some info => Except.ok info
    | none => Except.error "Unexpected token in JSON"

/-- src/downloader.js listFormats, after both subprocesses succeeded (a
nonzero exit of either would already have rejected the whole call):
parse the textual listing, index the JSON formats by format_id, and build the
structured format records.  A propagated fetchInfo failure fails the probe. -/
def listFormats (jsonParse : String → Option Info) (listOutput : String)
    (infoStdout : String) : Except String ProbeResult :=
  match fetchInfo jsonParse infoStdout with
  | Except.error e => Except.error e
  | Except.ok info =>
    let parsed := parseFormatList listOutput
    let entries := info.formats.getD []
    let formats := parsed.map fun entry =>
      { id := entry.id, extension := entry.extension, resolution := entry.resolution,
        note := entry.note,
        approxSize := computeApproxSize entry entries,
        type := classifyFormat entry, raw := entry.raw,
        meta := formatMapGet entries entry.id : Format }
    Except.ok { title := info.title, webpageUrl := info.webpage_url,
                durationSeconds := jsOrQ info.duration none, formats := formats }

/-! ## src/downloader.js: download executor -/

/-- src/downloader.js pickDownloadedFile: the first directory entry that is
not hidden and not a partial/temporary/metadata sidecar file. -/
def pickDownloadedFile (files : List String) : Option String :=
  files.find? fun file =>
    !startsWithStr file "." &&
    (let lower := toLowerStr file
     !endsWithStr lower ".part" && !endsWithStr lower ".ytdl" && !endsWithStr lower ".info.json")

/-- Environment of one downloadMedia invocation: outcomes of the external
subprocess and filesystem steps.  The per-job working directory (named by the
fresh random jobId) is created by ensureDir before any of these can fail. -/
structure ExecEnv where
  binaryExists : Bool := true
  downloadExitOk : Bool := true
  files : List String := []
  randomName : String := "r"
  moveOk : Bool := true
  statSize : Option ℕ := none
  deriving DecidableEq

/-- The metadata part of downloadMedia's return value (the stream accessor is
the file itself; cleanup is the caller-invoked removal modelled in the job). -/
structure DownloadResultMeta where
  fileName : String
  title : String
  size : ℕ
  deriving DecidableEq

/-- src/downloader.js downloadMedia: ensureDir the working directory, run the
tool, resolve the produced file, move it to the sanitized target name, stat
it.  Every failure is thrown (Except.error); note that no failure path removes
the already-created working directory — only the returned cleanup action does. -/
def downloadMedia (env : ExecEnv) (type : MediaKind) (expectedTitle : Option String)
    (targetFileName : Option String) : Except String DownloadResultMeta :=
  if !env.binaryExists then Except.error "yt-dlp binary not found"
  else if !env.downloadExitOk then Except.error "yt-dlp exited with nonzero code"
  else
    match pickDownloadedFile env.files with
    | none => Except.error "Downloaded file not found"
    | some downloadedFile =>
      let baseTitle := sanitizeFileName (some (jsOrStr expectedTitle (pathName downloadedFile)))
      let displayTitle := jsOrStr expectedTitle baseTitle
      let originalExt :=
        if pathExt downloadedFile ≠ "" then pathExt downloadedFile
        else if type = MediaKind.audio then ".mp3" else ".mp4"
      let safeBase := sanitizeFileName (some (jsOrStr targetFileName env.randomName))
      let finalFileName := safeBase ++ originalExt
      if downloadedFile ≠ finalFileName ∧ !env.moveOk then Except.error "move failed"
      else
        match env.statSize with
        | none => Except.error "stat failed"
        | some sz =>
          Except.ok { fileName := finalFileName, title := displayTitle, size := sz }

/-! ## src/session-store.js: SessionStore over untyped JS objects -/

/-- A JS value stored in a session field. -/
inductive JsVal where
  | vNull
  | vNum (q : ℚ)
  | vStr (s : String)
  | vKind (k : MediaKind)
  | vFormats (l : List SelectedFormat)
  deriving DecidableEq

/-- A JS object: a partial map from field names to values (none = absent). -/
def JsObj := String → Option JsVal

/-- The empty JS object. -/
def emptyObj : JsObj := fun _ => none

/-- JS object spread merge of updated into existing. -/
def objMerge (existing updated : JsObj) : JsObj :=
  fun k =>
    match updated k with
    | some v => some v
    | none => existing k

/-- src/session-store.js SessionStore: a Map from chat id to session object. -/
structure SessionStore where
  sessions : ℕ → Option JsObj

/-- SessionStore.create: store a fresh state with createdAt spread under the
initial state. -/
def SessionStore.create (s : SessionStore) (chatId : ℕ) (now : ℚ)
    (initialState : JsObj) : SessionStore :=
  let state := objMerge (fun k => if k = "createdAt" then some (JsVal.vNum now) else none)
    initialState
  { sessions := fun k => if k = chatId then some state else s.sessions k }

/-- SessionStore.get. -/
def SessionStore.get (s : SessionStore) (chatId : ℕ) : Option JsObj :=
  s.sessions chatId

/-- SessionStore.update with an object updater (the handlers pass objects):
spread-merge the updater into the existing entry, defaulting to the empty
object when the key is absent. -/
def SessionStore.update (s : SessionStore) (chatId : ℕ) (updater : JsObj) : SessionStore :=
  let existing := (s.sessions chatId).getD emptyObj
  { sessions := fun k => if k = chatId then some (objMerge existing updater) else s.sessions k }

/-- SessionStore.delete. -/
def SessionStore.delete (s : SessionStore) (chatId : ℕ) : SessionStore :=
  { sessions := fun k => if k = chatId then none else s.sessions k }

/-! ## src/queue.js: DownloadQueue -/

/-- The scheduler state of the DownloadQueue, plus a log of started tasks (a
task is identified by a number).  activeCount and the FIFO wait list mirror
the class fields; started records each #runJob invocation in order. -/
structure DownloadQueue where
  concurrency : ℕ
  activeCount : ℕ
  queue : List ℕ
  started : List ℕ
  deriving DecidableEq

/-- The constructor: concurrency is clamped to at least 1. -/
def DownloadQueue.init (concurrency : ℕ) : DownloadQueue :=
  { concurrency := max concurrency 1, activeCount := 0, queue := [], started := [] }

/-- What enqueue hands back to the caller (the promise aside). -/
structure EnqueueTicket where
  position : ℕ
  queued : Bool
  deriving DecidableEq

/-- DownloadQueue.enqueue: admission control.  Below capacity the task starts
at once (#runJob increments activeCount); otherwise it joins the FIFO wait
list and the ticket reports its 1-based position among the waiters. -/
def DownloadQueue.enqueue (q : DownloadQueue) (t : ℕ) : EnqueueTicket × DownloadQueue :=
  let shouldQueue := q.concurrency ≤ q.activeCount
  let position := if shouldQueue then q.queue.length + 1 else 0
  if shouldQueue then
    ({ position := position, queued := true }, { q with queue := q.queue ++ [t] })
  else
    ({ position := position, queued := false },
     { q with activeCount := q.activeCount + 1, started := q.started ++ [t] })

/-- The finally block of #runJob, run on settlement of a started task whether
it resolved or rejected: release the active slot and start the FIFO head. -/
def DownloadQueue.complete (q : DownloadQueue) : DownloadQueue :=
  let q1 := { q with activeCount := q.activeCount - 1 }
  match q1.queue with
  | [] => q1
  | next :: rest =>
    { q1 with activeCount := q1.activeCount + 1, queue := rest,
              started := q1.started ++ [next] }

/-- Queue states reachable from a freshly constructed queue by enqueues and
settlements of started tasks. -/
inductive DownloadQueue.Reachable (c : ℕ) : DownloadQueue → Prop where
  | init : DownloadQueue.Reachable c (DownloadQueue.init c)
  | enqueue (q : DownloadQueue) (t : ℕ) :
      DownloadQueue.Reachable c q → DownloadQueue.Reachable c (q.enqueue t).2
  | complete (q : DownloadQueue) :
      DownloadQueue.Reachable c q → 0 < q.activeCount →
      DownloadQueue.Reachable c q.complete

/-! ## Bot entry file: typed session view and the session-mutating handlers.

The bot keeps one session object per chat in a SessionStore.  The handlers
only ever store the fields below, so the store is modelled here with a typed
session record (absent JS fields are none / 0); sessions.update with a partial
object literal becomes a record update of the existing entry (or, as in
SessionStore.update, of an empty record when the entry is absent). -/

/-- The session object of the bot (all fields the handlers read or write). -/
structure Session where
  createdAt : ℕ := 0
  url : Option String := none
  userId : Option ℕ := none
  selectionMessageId : Option ℕ := none
  formatMessageId : Option ℕ := none
  type : Option MediaKind := none
  title : Option String := none
  webpageUrl : Option String := none
  durationSeconds : Option ℚ := none
  formats : Option (List SelectedFormat) := none
  deriving DecidableEq

/-- The typed view of the bot's session store. -/
def Sessions := ℕ → Option Session

/-- sessions.get. -/
def Sessions.get (st : Sessions) (chatId : ℕ) : Option Session := st chatId

/-- sessions.create: replace the entry by a fresh state. -/
def Sessions.create (st : Sessions) (chatId : ℕ) (state : Session) : Sessions :=
  fun k => if k = chatId then some state else st k

/-- sessions.update with a partial object literal: merge into the existing
entry, or into an empty object when the entry is absent. -/
def Sessions.update (st : Sessions) (chatId : ℕ) (f : Session → Session) : Sessions :=
  fun k => if k = chatId then some (f ((st chatId).getD {})) else st k

/-- sessions.delete. -/
def Sessions.delete (st : Sessions) (chatId : ℕ) : Sessions :=
  fun k => if k = chatId then none else st k

/-- config.js: MAX_FILE_SIZE_BYTES = Math.round(MAX_FILE_SIZE_MB * 1024 * 1024). -/
def maxFileSizeBytes (mb : ℚ) : ℤ := jsRound (mb * 1024 * 1024)

/-- What the text handler replies with. -/
inductive TextResponse where
  | unauthorizedMsg
  | invalidUrl
  | kindPrompt
  deriving DecidableEq

/-- The bot.on text handler: only the allow-list gates it; an existing session
for the chat is discarded (whoever owned it) before the new URL is stored.
now is Date.now(), selMsgId the id of the kind-choice prompt message. -/
def textHandler (auth : ℕ → Bool) (st : Sessions) (chatId userId : ℕ) (text : String)
    (now selMsgId : ℕ) : Sessions × TextResponse :=
  if !auth userId then (st, TextResponse.unauthorizedMsg)
  else
    let st1 := if (st.get chatId).isSome then st.delete chatId else st
    match sanitizeUrl text with
    | none => (st1, TextResponse.invalidUrl)
    | some url =>
      let st2 := st1.create chatId { createdAt := now, url := some url, userId := some userId }
      let st3 := st2.update chatId fun s =>
        { s with selectionMessageId := some selMsgId, formatMessageId := none }
      (st3, TextResponse.kindPrompt)

/-- What the kind-choice callback replies with. -/
inductive TypeResponse where
  | notAllowed
  | noActive
  | probeFailed
  | noFormats
  | offered
  deriving DecidableEq

/-- The bot.action type:(audio|video) handler.  probeOutcome is the listFormats
result for the session's URL (its rejection is the catch branch); promptMsgId
is the callback message id, formatMsgId the id of the format keyboard reply. -/
def typeAction (auth : ℕ → Bool) (st : Sessions) (chatId userId : ℕ) (kind : MediaKind)
    (probeOutcome : Except String ProbeResult) (promptMsgId : Option ℕ)
    (formatMsgId : ℕ) : Sessions × TypeResponse :=
  if !auth userId then (st, TypeResponse.notAllowed)
  else
    match st.get chatId with
    | none => (st, TypeResponse.noActive)
    | some session =>
      if session.userId ≠ some userId then (st, TypeResponse.noActive)
      else
        let selectionMessageId := jsOrN session.selectionMessageId promptMsgId
        let st1 :=
          if selectionMessageId.isSome then
            st.update chatId fun s => { s with selectionMessageId := none }
          else st
        match probeOutcome with
        | Except.error _ => (st1, TypeResponse.probeFailed)
        | Except.ok pr =>
          let filtered := getFormatsByType pr.formats kind pr.durationSeconds
          if filtered.isEmpty then (st1, TypeResponse.noFormats)
          else
            (st1.update chatId fun s =>
              { s with type := some kind, title := pr.title, webpageUrl := pr.webpageUrl,
                       durationSeconds := pr.durationSeconds, formats := some filtered,
                       formatMessageId := some formatMsgId, selectionMessageId := none },
             TypeResponse.offered)

/-- What the format-choice callback replies with. -/
inductive FmtResponse where
  | notAllowed
  | expired
  | unknownFormat
  | tooLargeReoffer
  | queued (position : ℕ)
  deriving DecidableEq

/-- Result of the format-choice callback on the store and the queue. -/
structure FmtResult where
  store : Sessions
  queue : DownloadQueue
  response : FmtResponse

/-- The bot.action fmt:(audio|video):(index) handler up to job scheduling:
allow-list check, owner check, candidate lookup, preflight size check (reoffer
the same candidate list when the estimate exceeds the limit), else enqueue the
download task.  retryMsgId is the id of the reoffer keyboard message, taskId
identifies the enqueued task in the queue model. -/
def fmtAction (auth : ℕ → Bool) (st : Sessions) (q : DownloadQueue)
    (chatId userId : ℕ) (_kind : MediaKind) (index : ℕ) (limitBytes : ℤ)
    (retryMsgId taskId : ℕ) : FmtResult :=
  if !auth userId then { store := st, queue := q, response := FmtResponse.notAllowed }
  else
    match st.get chatId with
    | none => { store := st, queue := q, response := FmtResponse.expired }
    | some session =>
      if session.userId ≠ some userId then
        { store := st, queue := q, response := FmtResponse.expired }
      else
        match (session.formats.getD []).get? index with
        | none => { store := st, queue := q, response := FmtResponse.unknownFormat }
        | some selectedFormat =>
          let st1 :=
            if session.formatMessageId.isSome then
              st.update chatId fun s => { s with formatMessageId := none }
            else st
          let st2 := st1.update chatId fun s => { s with title := session.title }
          let estimatedSize := jsOrQ selectedFormat.estimatedSizeBytes
            (jsOrQ selectedFormat.approxSize none)
          match estimatedSize with
          | some sz =>
            if (limitBytes : ℚ) < sz then
              let currentFormats := session.formats.getD []
              if !currentFormats.isEmpty then
                { store := st2.update chatId fun s =>
                    { s with formatMessageId := some retryMsgId },
                  queue := q, response := FmtResponse.tooLargeReoffer }
              else
                { store := st2, queue := q, response := FmtResponse.tooLargeReoffer }
            else
              let tq := q.enqueue taskId
              { store := st2, queue := tq.2, response := FmtResponse.queued tq.1.position }
          | none =>
            let tq := q.enqueue taskId
            { store := st2, queue := tq.2, response := FmtResponse.queued tq.1.position }

/-- What the cancel callback replies with. -/
inductive CancelResponse where
  | canceled
  deriving DecidableEq

/-- The bot.action cancel handler: it consults neither the allow-list nor the
session owner — it deletes whatever session the chat has. -/
def cancelAction (st : Sessions) (chatId : ℕ) (_userId : ℕ) : Sessions × CancelResponse :=
  (st.delete chatId, CancelResponse.canceled)

/-! ## Bot entry file: the download job task and its settlement -/

deriving instance DecidableEq for Except

/-- A Telegram API error as inspected by isTelegramEntityTooLarge. -/
structure TgError where
  code : Option ℤ := none
  description : Option String := none
  deriving DecidableEq

/-- Bot entry file isTelegramEntityTooLarge. -/
def isTelegramEntityTooLarge (e : TgError) : Bool :=
  e.code == some 413 ||
    (match e.description with
     | some d => containsStr (toLowerStr d) "request entity too large"
     | none => false)

/-- An error carried by a rejected job promise: a throw from the download or
filesystem step, or a rethrown transport error. -/
inductive JobError where
  | exec (msg : String)
  | transport (e : TgError)
  deriving DecidableEq

/-- Environment of one enqueued download job run. -/
structure JobEnv where
  exec : ExecEnv
  delivery : Except TgError Unit := Except.ok ()
  removeOk : Bool := true
  deriving DecidableEq

/-- The task's settlement value plus what the finally block did: whether the
cleanup (removal of the working directory) was attempted and whether that
attempt itself failed (such a failure is logged and swallowed). -/
structure TaskRunResult where
  outcome : Except JobError (Bool × Bool)
  cleanupAttempted : Bool
  cleanupFailed : Bool
  deriving DecidableEq

/-- The async task enqueued by the format-choice handler, including its
try/finally: run downloadMedia; on its success check the downloaded size,
deliver, map a transport too-large rejection to a recoverable result, rethrow
other transport errors; the finally block invokes download.cleanup() only when
download is set, i.e. only when downloadMedia returned.  The outcome pair is
(success, keepSession). -/
def downloadJobTask (env : JobEnv) (limitBytes : ℤ) (type : MediaKind)
    (expectedTitle : Option String) (targetFileName : Option String) : TaskRunResult :=
  match downloadMedia env.exec type expectedTitle targetFileName with
  | Except.error msg =>
    { outcome := Except.error (JobError.exec msg),
      cleanupAttempted := false, cleanupFailed := false }
  | Except.ok download =>
    let outcome : Except JobError (Bool × Bool) :=
      if limitBytes < (download.size : ℤ) then Except.ok (false, true)
      else
        match env.delivery with
        | Except.ok _ => Except.ok (true, false)
        | Except.error e =>
          if isTelegramEntityTooLarge e then Except.ok (false, true)
          else Except.error (JobError.transport e)
    { outcome := outcome, cleanupAttempted := true, cleanupFailed := !env.removeOk }

/-- What the settlement continuation does besides mutating the store. -/
inductive SettleResponse where
  | doneDeleted
  | reoffer
  | keptNoFormats
  | cleared
  | genericFailure
  deriving DecidableEq

/-- The job.promise.then/.catch continuation attached by the format-choice
handler: success deletes the session; a keepSession result reoffers the
current candidate list; any other resolution deletes the session; a rejection
only edits the status message to a fixed generic failure text — the session
entry is not touched. -/
def jobSettled (st : Sessions) (chatId : ℕ) (outcome : Except JobError (Bool × Bool))
    (retryMsgId : ℕ) : Sessions × SettleResponse :=
  match outcome with
  | Except.ok result =>
    if result.1 then (st.delete chatId, SettleResponse.doneDeleted)
    else if result.2 then
      match st.get chatId with
      | some currentSession =>
        if !(currentSession.formats.getD []).isEmpty then
          (st.update chatId fun s => { s with formatMessageId := some retryMsgId },
           SettleResponse.reoffer)
        else (st, SettleResponse.keptNoFormats)
      | none => (st, SettleResponse.keptNoFormats)
    else (st.delete chatId, SettleResponse.cleared)
  | Except.error _ => (st, SettleResponse.genericFailure)

/-- The fixed failure text of the rejection branch (no error details). -/
def genericFailureText : String := "Failed. Please try another format or send a new link."

/-! ## Concrete example data used by witnesses and counterexamples -/

/-- A concrete oversized video candidate (estimated 2,000,000,000 bytes). -/
def bigFmt : SelectedFormat where
  id := "137"
  extension := "mp4"
  resolution := "1920x1080"
  note := ""
  approxSize := none
  type := MediaKind.video
  raw := ""
  meta := none
  estimatedSizeBytes := some 2000000000
  displayLabel := "MP4 1080p (~1.9GB)"
  targetFileName := "137-video"

/-- A concrete session owned by user 1, in the format-choice stage. -/
def exSession : Session where
  createdAt := 1
  url := some "https://youtu.be/a"
  userId := some 1
  formatMessageId := some 40
  type := some MediaKind.video
  title := some "t"
  formats := some [bigFmt]

/-- A concrete store holding exSession for chat 7. -/
def exStore : Sessions := fun k => if k = 7 then some exSession else none

/-- A concrete update object for the untyped store. -/
def exUpd : JsObj := fun k => if k = "url" then some (JsVal.vStr "https://x") else none

/-! ## C10: updating a missing session resurrects it -/

/-- C10: for a conversation key with no stored session, SessionStore.update
does not fail and does not leave the store unchanged: it inserts the updater
merged into an empty object, which a subsequent get returns — a previously
deleted or cancelled session is silently resurrected as a partial session. -/
theorem sessionStore_update_missing_resurrects (s : SessionStore) (chatId : ℕ)
    (u : JsObj) (h : s.get chatId = none) :
    (s.update chatId u).get chatId = some (objMerge emptyObj u)
    ∧ objMerge emptyObj u = u
    ∧ (s.update chatId u).get chatId ≠ s.get chatId := by
  have hmerge : objMerge emptyObj u = u := by
    funext k
    simp only [objMerge, emptyObj]
    cases u k <;> rfl
  simp only [SessionStore.get] at h
  refine ⟨?_, hmerge, ?_⟩
  · simp [SessionStore.update, SessionStore.get, h]
  · simp [SessionStore.update, SessionStore.get, h]

/-- C10 witness: updating an empty store at key 3 stores exactly the partial
update object. -/
theorem sessionStore_update_missing_resurrects_witness :
    ((SessionStore.mk fun _ => none).update 3 exUpd).get 3 = some (objMerge emptyObj exUpd)
    ∧ objMerge emptyObj exUpd = exUpd
    ∧ ((SessionStore.mk fun _ => none).update 3 exUpd).get 3
        ≠ (SessionStore.mk fun _ => none).get 3 :=
  sessionStore_update_missing_resurrects (SessionStore.mk fun _ => none) 3 exUpd rfl

/-! ## C2: a rejected download job does not clear the session -/

/-- C2 counterexample: a job rejection (ExecutionFailure) leaves the stored
session in place — the session store entry is not cleared, contradicting the
claim that ExecutionFailure clears the state. -/
theorem jobSettled_rejection_keeps_session_cex :
    exStore 7 = some exSession
    ∧ (jobSettled exStore 7 (Except.error (JobError.exec "boom")) 9).1 7 = some exSession
    ∧ (jobSettled exStore 7 (Except.error (JobError.exec "boom")) 9).2
        = SettleResponse.genericFailure :=
  ⟨rfl, rfl, rfl⟩

/-- C2 amended: when the job's promise rejects, the catch handler surfaces
only the fixed generic failure text — independent of the error — and the
session store is left completely untouched (the entry is not cleared). -/
theorem jobSettled_rejection_generic_untouched (st : Sessions) (chatId retryMsgId : ℕ)
    (e : JobError) :
    jobSettled st chatId (Except.error e) retryMsgId = (st, SettleResponse.genericFailure)
    ∧ genericFailureText = "Failed. Please try another format or send a new link." :=
  ⟨rfl, rfl⟩

/-! ## C1: which entry points enforce the ownership invariant -/

/-- The session stored by the text handler after a new URL submission. -/
def freshUrlSession (now selMsgId : ℕ) (url : String) (userId : ℕ) : Session where
  createdAt := now
  url := some url
  userId := some userId
  selectionMessageId := some selMsgId
  formatMessageId := none

/-- C1 counterexample: the cancel callback acts for an identity (user 2) that
differs from the session owner (user 1), yet the stored session is deleted —
not left unchanged — so the claim fails for the cancel entry point. -/
theorem cancelAction_ignores_owner_cex :
    exStore 7 = some exSession
    ∧ exSession.userId = some 1
    ∧ (cancelAction exStore 7 2).1 7 = none :=
  ⟨rfl, rfl, rfl⟩

/-- C1 amended: the kind-choice and format-choice callbacks verify the acting
identity against the session owner and reject a mismatch with a generic
alert carrying no session contents and no change to the store or queue; the
cancel callback deletes the chat's session without any identity check, and a
new URL submission by any allow-listed user replaces the previous owner's
session outright. -/
theorem owner_mismatch_rejection (auth : ℕ → Bool) (st : Sessions) (q : DownloadQueue)
    (chatId userId : ℕ) (kind : MediaKind) (index : ℕ) (limitBytes : ℤ)
    (probe : Except String ProbeResult) (promptMsgId : Option ℕ)
    (formatMsgId retryMsgId taskId : ℕ) (session : Session)
    (hauth : auth userId = true)
    (hsess : st.get chatId = some session)
    (hmism : session.userId ≠ some userId) :
    typeAction auth st chatId userId kind probe promptMsgId formatMsgId
      = (st, TypeResponse.noActive)
    ∧ fmtAction auth st q chatId userId kind index limitBytes retryMsgId taskId
      = { store := st, queue := q, response := FmtResponse.expired }
    ∧ (cancelAction st chatId userId).1 chatId = none
    ∧ (∀ text now selMsgId url, sanitizeUrl text = some url →
        ((textHandler auth st chatId userId text now selMsgId).1).get chatId
          = some (freshUrlSession now selMsgId url userId)) := by
  refine ⟨?_, ?_, ?_, ?_⟩
  · simp [typeAction, hauth, hsess, hmism]
  · simp [fmtAction, hauth, hsess, hmism]
  · simp [cancelAction, Sessions.delete]
  · intro text now selMsgId url hurl
    have hs : (st.get chatId).isSome = true := by simp [hsess]
    simp [textHandler, hauth, hs, hurl, Sessions.get, Sessions.create, Sessions.update,
      Sessions.delete, freshUrlSession]

/-- C1 witness: the mismatch rejection instantiated at the concrete store
(owner 1, acting identity 2) together with a concrete URL submission. -/
theorem owner_mismatch_rejection_witness :
    (typeAction (fun _ => true) exStore 7 2 MediaKind.video (Except.error "e") none 1
      = (exStore, TypeResponse.noActive)
    ∧ fmtAction (fun _ => true) exStore (DownloadQueue.init 2) 7 2 MediaKind.video 0 100 3 4
      = { store := exStore, queue := DownloadQueue.init 2, response := FmtResponse.expired }
    ∧ (cancelAction exStore 7 2).1 7 = none
    ∧ (∀ text now selMsgId url, sanitizeUrl text = some url →
        ((textHandler (fun _ => true) exStore 7 2 text now selMsgId).1).get 7
          = some (freshUrlSession now selMsgId url 2))) :=
  owner_mismatch_rejection (fun _ => true) exStore (DownloadQueue.init 2) 7 2 MediaKind.video
    0 100 (Except.error "e") none 1 3 4 exSession rfl rfl (by decide)

/-! ## C3: when the working directory cleanup is attempted -/

/-- C3 counterexample: when the external tool subprocess fails, downloadMedia
throws after the working directory was created and no removal of the directory
is attempted on that exit path (the caller's finally block guards the cleanup
on a download result that does not exist). -/
theorem downloadJobTask_no_cleanup_on_exec_failure_cex :
    (downloadMedia ({ downloadExitOk := false } : ExecEnv) MediaKind.video none none).isOk
      = false
    ∧ (downloadJobTask { exec := { downloadExitOk := false } } 100 MediaKind.video
        none none).cleanupAttempted = false :=
  ⟨rfl, rfl⟩

/-- C3 amended: removal of the working directory is attempted exactly when the
executor returned a result — in particular on the oversize and delivery
failure paths — and a cleanup failure is logged but never changes the job's
outcome; on executor-internal failures (subprocess failure, no output file,
move or stat failure) no removal is attempted and the directory is leaked. -/
theorem downloadJob_cleanup_characterization (env : JobEnv) (limitBytes : ℤ)
    (type : MediaKind) (expectedTitle targetFileName : Option String) :
    ((downloadMedia env.exec type expectedTitle targetFileName).isOk = true →
      (downloadJobTask env limitBytes type expectedTitle targetFileName).cleanupAttempted
        = true)
    ∧ ((downloadMedia env.exec type expectedTitle targetFileName).isOk = false →
      (downloadJobTask env limitBytes type expectedTitle targetFileName).cleanupAttempted
        = false)
    ∧ (∀ b : Bool,
        (downloadJobTask { env with removeOk := b } limitBytes type expectedTitle
          targetFileName).outcome
        = (downloadJobTask env limitBytes type expectedTitle targetFileName).outcome)
    ∧ ((downloadJobTask env limitBytes type expectedTitle targetFileName).cleanupFailed
          = true →
        env.removeOk = false
        ∧ (downloadJobTask env limitBytes type expectedTitle
            targetFileName).cleanupAttempted = true) := by
  cases h : downloadMedia env.exec type expectedTitle targetFileName with
  | error msg =>
    refine ⟨?_, ?_, ?_, ?_⟩
    · intro hok
      simp [h, Except.isOk, Except.toBool] at hok
    · intro _
      simp [downloadJobTask, h]
    · intro b
      simp [downloadJobTask, h]
    · intro hf
      simp [downloadJobTask, h] at hf
  | ok download =>
    refine ⟨?_, ?_, ?_, ?_⟩
    · intro _
      simp [downloadJobTask, h]
    · intro hok
      simp [h, Except.isOk, Except.toBool] at hok
    · intro b
      simp [downloadJobTask, h]
    · intro hf
      simp [downloadJobTask, h] at hf ⊢
      exact hf

/-- C3 witness: the characterization at a successful run and at a failing
subprocess. -/
theorem downloadJob_cleanup_characterization_witness :
    (downloadJobTask { exec := { files := ["abc.mp4"], statSize := some 5 } } 100
      MediaKind.video none none).cleanupAttempted = true
    ∧ (downloadJobTask { exec := { downloadExitOk := false } } 100 MediaKind.video
        none none).cleanupAttempted = false :=
  ⟨(downloadJob_cleanup_characterization { exec := { files := ["abc.mp4"], statSize := some 5 } }
      100 MediaKind.video none none).1 (by decide),
   (downloadJob_cleanup_characterization { exec := { downloadExitOk := false } }
      100 MediaKind.video none none).2.1 (by decide)⟩

/-! ## C4: probe failure conditions -/

/-- The probe result listFormats returns for an empty textual listing and a
parseable JSON document with only a title. -/
def emptyListingProbe : ProbeResult where
  title := some "t"
  webpageUrl := none
  durationSeconds := none
  formats := []

/-- C4 counterexample: a textual listing that parses to zero entries does not
fail the probe — listFormats succeeds and returns a ProbeResult with an empty
candidate list, contradicting the claim that the whole probe fails then. -/
theorem listFormats_zero_entries_ok_cex :
    parseFormatList "" = []
    ∧ listFormats (fun _ => some { title := some "t" }) "" "x"
        = Except.ok emptyListingProbe := by
  constructor
  · rfl
  · with_unfolding_all decide

/-- C4 amended: an absent JSON document (no nonblank metadata line) or an
unparseable one fails the whole probe with an error and no result; when the
JSON document parses, listFormats succeeds and returns one candidate per
parsed listing line — zero parsed lines yield an empty candidate list rather
than a failure. -/
theorem listFormats_failure_characterization (jsonParse : String → Option Info)
    (listOutput infoStdout : String) :
    (firstNonBlank infoStdout = none →
      listFormats jsonParse listOutput infoStdout
        = Except.error "Unable to parse yt-dlp metadata output")
    ∧ (∀ line, firstNonBlank infoStdout = some line → jsonParse line = none →
        (listFormats jsonParse listOutput infoStdout).isOk = false)
    ∧ (∀ line info, firstNonBlank infoStdout = some line → jsonParse line = some info →
        ∃ pr, listFormats jsonParse listOutput infoStdout = Except.ok pr
          ∧ pr.formats.length = (parseFormatList listOutput).length) := by
  refine ⟨fun h => ?_, fun line h hj => ?_, fun line info h hj => ?_⟩
  · simp [listFormats, fetchInfo, h]
  · simp [listFormats, fetchInfo, h, hj, Except.isOk, Except.toBool]
  · simp only [listFormats, fetchInfo, h, hj]
    exact ⟨_, rfl, by simp⟩

/-- C4 witness: the characterization at concrete inputs for all three cases. -/
theorem listFormats_failure_characterization_witness :
    listFormats (fun _ => none) "x" "" = Except.error "Unable to parse yt-dlp metadata output"
    ∧ (listFormats (fun _ => none) "x" "y").isOk = false
    ∧ ∃ pr, listFormats (fun _ => some { title := some "t" }) "140 m4a audio only | 128k" "y"
        = Except.ok pr
        ∧ pr.formats.length = (parseFormatList "140 m4a audio only | 128k").length :=
  ⟨(listFormats_failure_characterization (fun _ => none) "x" "").1 rfl,
   ((listFormats_failure_characterization (fun _ => none) "x" "y").2.1) "y" rfl rfl,
   ((listFormats_failure_characterization (fun _ => some { title := some "t" })
      "140 m4a audio only | 128k" "y").2.2) "y" { title := some "t" } rfl rfl⟩

/-! ## C5: preflight size check keeps the session in the format-choice stage -/

/-- C5: when the chosen candidate's effective estimated size (estimated bytes,
else approximate size) exceeds the configured limit, the format-choice handler
schedules no job — the queue is returned untouched — and reoffers the same
candidate list: the stored session still holds exactly the formats it held
before. -/
theorem fmtAction_oversize_no_job (auth : ℕ → Bool) (st : Sessions) (q : DownloadQueue)
    (chatId userId : ℕ) (kind : MediaKind) (index : ℕ) (limitBytes : ℤ)
    (retryMsgId taskId : ℕ) (session : Session) (f : SelectedFormat) (sz : ℚ)
    (hauth : auth userId = true)
    (hsess : st.get chatId = some session)
    (howner : session.userId = some userId)
    (hf : (session.formats.getD []).get? index = some f)
    (hest : jsOrQ f.estimatedSizeBytes (jsOrQ f.approxSize none) = some sz)
    (hover : (limitBytes : ℚ) < sz) :
    (fmtAction auth st q chatId userId kind index limitBytes retryMsgId taskId).queue = q
    ∧ (fmtAction auth st q chatId userId kind index limitBytes retryMsgId taskId).response
        = FmtResponse.tooLargeReoffer
    ∧ ∃ s2, (fmtAction auth st q chatId userId kind index limitBytes retryMsgId
          taskId).store.get chatId = some s2
        ∧ s2.formats = session.formats := by
  have hsess2 : st chatId = some session := hsess
  have hf2 : (session.formats.getD [])[index]? = some f := by
    rw [← List.get?_eq_getElem?]
    exact hf
  have hne : ¬ session.formats.getD [] = [] := by
    intro hd
    rw [hd] at hf2
    simp at hf2
  cases hfm : session.formatMessageId with
  | none =>
    refine ⟨?_, ?_, ?_⟩ <;>
      simp [fmtAction, hauth, hsess2, howner, hf2, hest, hover, hfm, hne,
        Sessions.get, Sessions.update]
  | some m =>
    refine ⟨?_, ?_, ?_⟩ <;>
      simp [fmtAction, hauth, hsess2, howner, hf2, hest, hover, hfm, hne,
        Sessions.get, Sessions.update]

/-- C5 witness: the end-to-end scenario — estimated size 2,000,000,000 bytes
against a configured maximum of 1900 MB (1,992,294,400 bytes): the session
stays in the format-choice stage with the same candidate list and the queue is
untouched. -/
theorem fmtAction_oversize_no_job_witness :
    (maxFileSizeBytes 1900 : ℚ) < 2000000000
    ∧ (fmtAction (fun _ => true) exStore (DownloadQueue.init 2) 7 1 MediaKind.video 0
        (maxFileSizeBytes 1900) 55 100).queue = DownloadQueue.init 2
    ∧ (fmtAction (fun _ => true) exStore (DownloadQueue.init 2) 7 1 MediaKind.video 0
        (maxFileSizeBytes 1900) 55 100).response = FmtResponse.tooLargeReoffer
    ∧ ∃ s2, (fmtAction (fun _ => true) exStore (DownloadQueue.init 2) 7 1 MediaKind.video 0
          (maxFileSizeBytes 1900) 55 100).store.get 7 = some s2
        ∧ s2.formats = exSession.formats :=
  ⟨by with_unfolding_all decide,
   fmtAction_oversize_no_job (fun _ => true) exStore (DownloadQueue.init 2) 7 1
     MediaKind.video 0 (maxFileSizeBytes 1900) 55 100 exSession bigFmt 2000000000
     rfl rfl rfl rfl rfl (by with_unfolding_all decide)⟩

/-! ## C6: bounded-concurrency FIFO queue semantics -/

/-- Invariant of reachable queue states: the active count never exceeds the
concurrency bound, and a nonempty wait list means every slot is busy. -/
theorem downloadQueue_inv_aux (c : ℕ) (q : DownloadQueue)
    (h : DownloadQueue.Reachable c q) :
    q.activeCount ≤ q.concurrency ∧ (q.queue ≠ [] → q.activeCount = q.concurrency) := by
  induction h with
  | init => simp [DownloadQueue.init]
  | enqueue q t hr ih =>
    by_cases hq : q.concurrency ≤ q.activeCount
    · simp only [DownloadQueue.enqueue, if_pos hq]
      exact ⟨ih.1, fun _ => le_antisymm ih.1 hq⟩
    · simp only [DownloadQueue.enqueue, if_neg hq]
      exact ⟨by omega, fun hne => absurd (ih.2 hne) (by omega)⟩
  | complete q hr hpos ih =>
    cases hqueue : q.queue with
    | nil =>
      simp only [DownloadQueue.complete, hqueue]
      exact ⟨by omega, fun hne => absurd rfl hne⟩
    | cons next rest =>
      have hfull := ih.2 (by simp [hqueue])
      simp only [DownloadQueue.complete, hqueue]
      exact ⟨by omega, fun _ => by omega⟩

/-- C6: the queue's scheduling contract.  Enqueue starts the task at once with
position 0 exactly when fewer than concurrency tasks are active, otherwise
appends it to the FIFO wait list reporting its 1-based position among waiters;
on every settlement of a started task — success and failure share the finally
block — the slot is released and the head of the wait list, if any, is started
next; and in every reachable state the active count never exceeds the bound. -/
theorem downloadQueue_fifo_bounded (c : ℕ) :
    (∀ (q : DownloadQueue) (t : ℕ),
      ((q.enqueue t).1.position = 0 ↔ q.activeCount < q.concurrency))
    ∧ (∀ (q : DownloadQueue) (t : ℕ), q.activeCount < q.concurrency →
        (q.enqueue t).2
          = { q with
                activeCount := q.activeCount + 1
                started := q.started ++ [t] }
        ∧ (q.enqueue t).1.queued = false)
    ∧ (∀ (q : DownloadQueue) (t : ℕ), q.concurrency ≤ q.activeCount →
        (q.enqueue t).2 = { q with queue := q.queue ++ [t] }
        ∧ (q.enqueue t).1.position = q.queue.length + 1
        ∧ (q.enqueue t).1.queued = true)
    ∧ (∀ q : DownloadQueue, q.queue = [] →
        q.complete = { q with activeCount := q.activeCount - 1 })
    ∧ (∀ (q : DownloadQueue) (next : ℕ) (rest : List ℕ), q.queue = next :: rest →
        q.complete
          = { q with
                activeCount := q.activeCount - 1 + 1
                queue := rest
                started := q.started ++ [next] })
    ∧ (∀ q : DownloadQueue, DownloadQueue.Reachable c q →
        q.activeCount ≤ q.concurrency) := by
  refine ⟨?_, ?_, ?_, ?_, ?_, ?_⟩
  · intro q t
    by_cases hq : q.concurrency ≤ q.activeCount
    · simp only [DownloadQueue.enqueue, if_pos hq]
      constructor
      · intro hpos
        omega
      · intro hlt
        omega
    · simp only [DownloadQueue.enqueue, if_neg hq]
      refine ⟨fun _ => by omega, fun _ => ?_⟩
      simp
  · intro q t hlt
    constructor <;> simp [DownloadQueue.enqueue, not_le.mpr hlt]
  · intro q t hge
    refine ⟨?_, ?_, ?_⟩ <;> simp [DownloadQueue.enqueue, hge]
  · intro q hq
    simp [DownloadQueue.complete, hq]
  · intro q next rest hq
    simp [DownloadQueue.complete, hq]
  · intro q hr
    exact (downloadQueue_inv_aux c q hr).1

/-- C6 witness: three enqueues against concurrency 2 — positions 0, 0, 1; the
settlement of a started task promotes the FIFO head; the bound holds in the
reached state. -/
theorem downloadQueue_fifo_bounded_witness :
    (((DownloadQueue.init 2).enqueue 1).1.position = 0
      ↔ (DownloadQueue.init 2).activeCount < (DownloadQueue.init 2).concurrency)
    ∧ ((((DownloadQueue.init 2).enqueue 1).2.enqueue 2).2.enqueue 3).1.position
        = (((DownloadQueue.init 2).enqueue 1).2.enqueue 2).2.queue.length + 1
    ∧ ((((DownloadQueue.init 2).enqueue 1).2.enqueue 2).2.enqueue 3).2.complete
        = { concurrency := 2, activeCount := 2, queue := [], started := [1, 2, 3] }
    ∧ ((((DownloadQueue.init 2).enqueue 1).2.enqueue 2).2.enqueue 3).2.activeCount
        ≤ ((((DownloadQueue.init 2).enqueue 1).2.enqueue 2).2.enqueue 3).2.concurrency := by
  refine ⟨(downloadQueue_fifo_bounded 2).1 (DownloadQueue.init 2) 1, ?_, ?_, ?_⟩
  · exact ((downloadQueue_fifo_bounded 2).2.2.1
      (((DownloadQueue.init 2).enqueue 1).2.enqueue 2).2 3 (by decide)).2.1
  · rw [(downloadQueue_fifo_bounded 2).2.2.2.2.1
      ((((DownloadQueue.init 2).enqueue 1).2.enqueue 2).2.enqueue 3).2 3 [] (by decide)]
    decide
  · exact (downloadQueue_fifo_bounded 2).2.2.2.2.2 _
      (DownloadQueue.Reachable.enqueue _ 3
        (DownloadQueue.Reachable.enqueue _ 2
          (DownloadQueue.Reachable.enqueue _ 1 DownloadQueue.Reachable.init)))

/-! ## C8: selector output is bounded by 6 and kind-homogeneous -/

/-- Membership through stable insertion. -/
theorem mem_stableInsert (le : Format → Format → Bool) (x a : Format) (l : List Format) :
    a ∈ stableInsert le x l ↔ a = x ∨ a ∈ l := by
  induction l with
  | nil => simp [stableInsert]
  | cons b rest ih =>
    simp only [stableInsert]
    cases hle : le b x with
    | false =>
      simp only [Bool.false_eq_true, if_false, List.mem_cons]
    | true =>
      simp only [if_true, List.mem_cons, ih]
      tauto

/-- The stable sort permutes: membership is preserved. -/
theorem mem_jsSort (le : Format → Format → Bool) (a : Format) (l : List Format) :
    a ∈ jsSort le l ↔ a ∈ l := by
  induction l with
  | nil => simp [jsSort]
  | cons b rest ih => simp [jsSort, mem_stableInsert, ih]

/-- Every element of the deduplication loop's output comes from the input pool
or the accumulator: any predicate over both carries over to the output. -/
theorem dedupGo_pred (type : MediaKind) (p : Format → Prop) :
    ∀ (l ded : List Format) (keys : List (String × ℕ)),
      (∀ f ∈ l, p f) → (∀ f ∈ ded, p f) → ∀ g ∈ dedupGo type l ded keys, p g := by
  intro l
  induction l with
  | nil =>
    intro ded keys _ hded g hg
    exact hded g hg
  | cons fmt rest ih =>
    intro ded keys hl hded g hg
    have hfmt : p fmt := hl fmt (List.mem_cons_self fmt rest)
    have hrest : ∀ f ∈ rest, p f := fun f hf => hl f (List.mem_cons_of_mem fmt hf)
    simp only [dedupGo] at hg
    cases hlk : lookupKey (bucketKey type fmt) keys with
    | none =>
      rw [hlk] at hg
      refine ih (ded ++ [fmt]) _ hrest (fun f hf => ?_) g hg
      rcases List.mem_append.mp hf with hf | hf
      · exact hded f hf
      · rw [List.mem_singleton.mp hf]
        exact hfmt
    | some idx =>
      rw [hlk] at hg
      have hgetD : p (ded.getD idx fmt) := by
        by_cases hidx : idx < ded.length
        · rw [List.getD_eq_getElem ded fmt hidx]
          exact hded _ (List.getElem_mem hidx)
        · rw [List.getD_eq_default ded fmt (le_of_not_lt hidx)]
          exact hfmt
      refine ih _ _ hrest (fun f hf => ?_) g hg
      rcases List.mem_or_eq_of_mem_set hf with hf | hf
      · exact hded f hf
      · rw [hf]
        unfold dedupReplace
        dsimp only
        split
        · exact hfmt
        · exact hgetD

/-- Decoration keeps the underlying format record, hence its kind. -/
theorem decorateFormat_type (type : MediaKind) (d : Option ℚ) (fmt : Format) :
    (decorateFormat type d fmt).type = fmt.type := by
  cases type <;> rfl

/-- C8: the Format Selector's output never has more than 6 entries and every
entry's kind equals the requested kind. -/
theorem formatSelector_bounded_kind (formats : List Format) (type : MediaKind)
    (durationSeconds : Option ℚ) :
    (getFormatsByType formats type durationSeconds).length ≤ 6
    ∧ ∀ s ∈ getFormatsByType formats type durationSeconds, s.type = type := by
  constructor
  · unfold getFormatsByType filterWellKnownFormats
    simp only [List.length_map, List.length_take]
    exact min_le_left _ _
  · intro s hs
    unfold getFormatsByType filterWellKnownFormats at hs
    cases type with
    | audio =>
      rcases List.mem_map.mp hs with ⟨fmt, hmem, rfl⟩
      rw [decorateFormat_type]
      have hmem2 := List.mem_of_mem_take hmem
      revert hmem2
      refine dedupGo_pred _ (fun f => f.type = MediaKind.audio) _ [] [] ?_ (by simp) fmt
      intro f hf
      simp only [reduceIte, mem_jsSort, List.mem_filter, keepFormat, Bool.and_eq_true,
        beq_iff_eq] at hf
      exact hf.2.1.1
    | video =>
      rcases List.mem_map.mp hs with ⟨fmt, hmem, rfl⟩
      rw [decorateFormat_type]
      have hmem2 := List.mem_of_mem_take hmem
      revert hmem2
      refine dedupGo_pred _ (fun f => f.type = MediaKind.video) _ [] [] ?_ (by simp) fmt
      intro f hf
      rw [if_neg (fun h => MediaKind.noConfusion h), mem_jsSort] at hf
      have h2 := (List.mem_filter.mp hf).2
      simp only [keepFormat, Bool.and_eq_true, beq_iff_eq] at h2
      exact h2.1.1

/-- C8 witness: the bound and kind homogeneity at a concrete input list. -/
theorem formatSelector_bounded_kind_witness :
    (getFormatsByType [bigFmt.toFormat] MediaKind.video none).length ≤ 6
    ∧ ∀ s ∈ getFormatsByType [bigFmt.toFormat] MediaKind.video none,
        s.type = MediaKind.video :=
  formatSelector_bounded_kind [bigFmt.toFormat] MediaKind.video none

/-! ## C7: no two selector entries share a bucket key -/

/-- lookupKey over a table extended at the back. -/
theorem lookupKey_append (k k0 : String) (n : ℕ) (keys : List (String × ℕ)) :
    lookupKey k (keys ++ [(k0, n)])
      = match lookupKey k keys with
        | some i => some i
        | none => if k0 = k then some n else none := by
  induction keys with
  | nil => simp [lookupKey]
  | cons p rest ih =>
    cases p with
    | mk k2 i =>
      by_cases h : k2 = k
      · simp [lookupKey, h]
      · simp only [List.cons_append, lookupKey, if_neg h]
        exact ih

/-- Replacing one element by one with the same key preserves pairwise
distinctness of keys. -/
theorem pairwise_ne_set_same (key : Format → String) (l : List Format) (i : ℕ) (x : Format)
    (hi : i < l.length) (hkey : key x = key l[i])
    (h : l.Pairwise (fun a b => key a ≠ key b)) :
    (l.set i x).Pairwise (fun a b => key a ≠ key b) := by
  rw [List.pairwise_iff_get] at h ⊢
  intro a b hab
  rw [List.get_eq_getElem, List.get_eq_getElem, List.getElem_set, List.getElem_set]
  have hla : (a : ℕ) < l.length := by
    have := a.isLt
    simp [List.length_set] at this
    exact this
  have hlb : (b : ℕ) < l.length := by
    have := b.isLt
    simp [List.length_set] at this
    exact this
  have hab2 : (a : ℕ) < (b : ℕ) := hab
  by_cases hia : i = (a : ℕ)
  · by_cases hib : i = (b : ℕ)
    · omega
    · simp only [if_pos hia, if_neg hib]
      rw [hkey]
      have hh := h ⟨i, hi⟩ ⟨(b : ℕ), hlb⟩ (Fin.mk_lt_mk.mpr (by omega))
      simpa using hh
  · by_cases hib : i = (b : ℕ)
    · simp only [if_neg hia, if_pos hib]
      intro hcon
      rw [hkey] at hcon
      have hh := h ⟨(a : ℕ), hla⟩ ⟨i, hi⟩ (Fin.mk_lt_mk.mpr (by omega))
      simp only [List.get_eq_getElem] at hh
      exact hh hcon
    · simp only [if_neg hia, if_neg hib]
      have hh := h ⟨(a : ℕ), hla⟩ ⟨(b : ℕ), hlb⟩ (Fin.mk_lt_mk.mpr hab2)
      simpa using hh

/-- The collision resolution keeps one of the two colliding candidates. -/
theorem dedupReplace_eq_or (a b : Format) (type : MediaKind) :
    dedupReplace a b type = a ∨ dedupReplace a b type = b := by
  unfold dedupReplace
  dsimp only
  split
  · exact Or.inl rfl
  · exact Or.inr rfl

/-- The deduplication loop invariant: if the accumulator has pairwise distinct
bucket keys and the key table indexes it faithfully, the output has pairwise
distinct bucket keys. -/
theorem dedupGo_pairwise (type : MediaKind) :
    ∀ (l ded : List Format) (keys : List (String × ℕ)),
      ded.Pairwise (fun a b => bucketKey type a ≠ bucketKey type b) →
      (∀ k i, lookupKey k keys = some i →
        i < ded.length ∧ ∀ d, bucketKey type (ded.getD i d) = k) →
      (∀ k, lookupKey k keys = none → ∀ g ∈ ded, bucketKey type g ≠ k) →
      (∀ k1 k2 i, lookupKey k1 keys = some i → lookupKey k2 keys = some i → k1 = k2) →
      (dedupGo type l ded keys).Pairwise
        (fun a b => bucketKey type a ≠ bucketKey type b) := by
  intro l
  induction l with
  | nil =>
    intro ded keys h1 _ _ _
    simpa [dedupGo] using h1
  | cons fmt rest ih =>
    intro ded keys h1 h2 h3 h4
    simp only [dedupGo]
    cases hlk : lookupKey (bucketKey type fmt) keys with
    | none =>
      apply ih
      · rw [List.pairwise_append]
        refine ⟨h1, List.pairwise_singleton _ _, fun a ha b hb => ?_⟩
        rw [List.mem_singleton.mp hb]
        exact h3 _ hlk a ha
      · intro k i hk
        rw [lookupKey_append] at hk
        cases hlo : lookupKey k keys with
        | some j =>
          rw [hlo] at hk
          cases hk
          obtain ⟨hlt, hkey⟩ := h2 k i hlo
          have hlt2 : i < (ded ++ [fmt]).length := by
            simp only [List.length_append, List.length_singleton]
            omega
          refine ⟨hlt2, fun d => ?_⟩
          rw [List.getD_eq_getElem _ d hlt2, List.getElem_append_left hlt,
            ← List.getD_eq_getElem _ d hlt]
          exact hkey d
        | none =>
          rw [hlo] at hk
          by_cases hk0 : bucketKey type fmt = k
          · rw [if_pos hk0] at hk
            cases hk
            have hlt2 : ded.length < (ded ++ [fmt]).length := by
              simp
            refine ⟨hlt2, fun d => ?_⟩
            rw [List.getD_eq_getElem _ d hlt2,
              List.getElem_concat_length ded fmt ded.length rfl hlt2]
            exact hk0
          · rw [if_neg hk0] at hk
            cases hk
      · intro k hk g hg
        rw [lookupKey_append] at hk
        cases hlo : lookupKey k keys with
        | some j =>
          rw [hlo] at hk
          cases hk
        | none =>
          rw [hlo] at hk
          by_cases hk0 : bucketKey type fmt = k
          · rw [if_pos hk0] at hk
            cases hk
          · rcases List.mem_append.mp hg with hg | hg
            · exact h3 k hlo g hg
            · rw [List.mem_singleton.mp hg]
              exact hk0
      · intro k1 k2 i hk1 hk2
        rw [lookupKey_append] at hk1 hk2
        cases hlo1 : lookupKey k1 keys with
        | some j1 =>
          rw [hlo1] at hk1
          cases hk1
          cases hlo2 : lookupKey k2 keys with
          | some j2 =>
            rw [hlo2] at hk2
            cases hk2
            exact h4 k1 k2 i hlo1 hlo2
          | none =>
            rw [hlo2] at hk2
            by_cases hk0 : bucketKey type fmt = k2
            · rw [if_pos hk0] at hk2
              cases hk2
              exact absurd (h2 k1 _ hlo1).1 (by omega)
            · rw [if_neg hk0] at hk2
              cases hk2
        | none =>
          rw [hlo1] at hk1
          by_cases hk01 : bucketKey type fmt = k1
          · rw [if_pos hk01] at hk1
            cases hk1
            cases hlo2 : lookupKey k2 keys with
            | some j2 =>
              rw [hlo2] at hk2
              cases hk2
              exact absurd (h2 k2 _ hlo2).1 (by omega)
            | none =>
              rw [hlo2] at hk2
              by_cases hk02 : bucketKey type fmt = k2
              · rw [if_pos hk02] at hk2
                rw [← hk01, ← hk02]
              · rw [if_neg hk02] at hk2
                cases hk2
          · rw [if_neg hk01] at hk1
            cases hk1
    | some idx =>
      obtain ⟨hidx, hkey0⟩ := h2 _ idx hlk
      have hrepl : bucketKey type (dedupReplace fmt (ded.getD idx fmt) type)
          = bucketKey type fmt := by
        rcases dedupReplace_eq_or fmt (ded.getD idx fmt) type with he | he
        · rw [he]
        · rw [he]
          exact hkey0 fmt
      apply ih
      · apply pairwise_ne_set_same (bucketKey type) ded idx _ hidx
        · rw [hrepl, ← List.getD_eq_getElem ded fmt hidx]
          exact (hkey0 fmt).symm
        · exact h1
      · intro k i hk
        refine ⟨by rw [List.length_set]; exact (h2 k i hk).1, fun d => ?_⟩
        have hlt : i < ded.length := (h2 k i hk).1
        have hlt2 : i < (ded.set idx (dedupReplace fmt (ded.getD idx fmt) type)).length := by
          rw [List.length_set]
          exact hlt
        rw [List.getD_eq_getElem _ d hlt2, List.getElem_set]
        by_cases hii : idx = i
        · rw [if_pos hii, hrepl]
          exact h4 _ k idx hlk (hii ▸ hk)
        · rw [if_neg hii, ← List.getD_eq_getElem ded d hlt]
          exact (h2 k i hk).2 d
      · intro k hk g hg
        rcases List.mem_or_eq_of_mem_set hg with hg | hg
        · exact h3 k hk g hg
        · rw [hg, hrepl]
          intro hcon
          rw [hcon] at hlk
          rw [hlk] at hk
          cases hk
      · exact h4

/-- Decoration spreads the underlying format record unchanged. -/
theorem decorateFormat_toFormat (type : MediaKind) (d : Option ℚ) (fmt : Format) :
    (decorateFormat type d fmt).toFormat = fmt := by
  cases type <;> rfl

/-- C7: no two entries of a Format Selector result share the same bucket key
(the nearest audio bitrate preset — or the id when no bitrate is derivable —
for audio; the raw resolution string, or the id when the resolution is empty,
for video). -/
theorem formatSelector_dedup (formats : List Format) (type : MediaKind)
    (durationSeconds : Option ℚ) :
    (getFormatsByType formats type durationSeconds).Pairwise
      (fun a b => bucketKey type a.toFormat ≠ bucketKey type b.toFormat) := by
  unfold getFormatsByType filterWellKnownFormats
  rw [List.pairwise_map]
  refine List.Pairwise.imp ?_
    (List.Pairwise.sublist (List.take_sublist 6 _)
      (dedupGo_pairwise type _ [] [] List.Pairwise.nil ?_ ?_ ?_))
  · intro a b hab
    rw [decorateFormat_toFormat, decorateFormat_toFormat]
    exact hab
  · intro k i hk
    simp [lookupKey] at hk
  · intro k _ g hg
    simp at hg
  · intro k1 k2 i hk1 _
    simp [lookupKey] at hk1

/-- C7 witness: pairwise distinct bucket keys at a concrete input list. -/
theorem formatSelector_dedup_witness :
    (getFormatsByType [bigFmt.toFormat] MediaKind.video none).Pairwise
      (fun a b => bucketKey MediaKind.video a.toFormat
        ≠ bucketKey MediaKind.video b.toFormat) :=
  formatSelector_dedup [bigFmt.toFormat] MediaKind.video none

/-! ## C9: the human size formatter -/

/-- formatBytesLoop divides by 1024 while at least 1024 remains and fuel (the
distance to the last unit) lasts: the result is the exact scaled value, it is
below 1024 unless every unit was used, and it stays at least 1 for inputs at
least 1. -/
theorem formatBytesLoop_spec (fuel : ℕ) : ∀ (v : ℚ) (i : ℕ), 0 < v →
    i ≤ (formatBytesLoop fuel v i).2
    ∧ (formatBytesLoop fuel v i).2 ≤ i + fuel
    ∧ (formatBytesLoop fuel v i).1 * 1024 ^ ((formatBytesLoop fuel v i).2 - i) = v
    ∧ 0 < (formatBytesLoop fuel v i).1
    ∧ ((formatBytesLoop fuel v i).1 < 1024 ∨ (formatBytesLoop fuel v i).2 = i + fuel)
    ∧ (1 ≤ v → 1 ≤ (formatBytesLoop fuel v i).1) := by
  induction fuel with
  | zero =>
    intro v i hv
    simp only [formatBytesLoop]
    exact ⟨le_refl i, by omega, by simp, hv, Or.inr rfl, fun h => h⟩
  | succ fuel ih =>
    intro v i hv
    simp only [formatBytesLoop]
    by_cases hc : (1024 : ℚ) ≤ v
    · rw [if_pos hc]
      have hv2 : 0 < v / 1024 := by positivity
      obtain ⟨ha, hb, hval, hpos, htop, hone⟩ := ih (v / 1024) (i + 1) hv2
      refine ⟨by omega, by omega, ?_, hpos, ?_, fun _ => hone (by
        rw [le_div_iff₀ (by norm_num)]
        linarith)⟩
      · have hji : (formatBytesLoop fuel (v / 1024) (i + 1)).2 - i
            = ((formatBytesLoop fuel (v / 1024) (i + 1)).2 - (i + 1)) + 1 := by omega
        rw [hji, pow_succ, ← mul_assoc, hval]
        field_simp
      · rcases htop with h | h
        · exact Or.inl h
        · exact Or.inr (by omega)
    · rw [if_neg hc]
      refine ⟨le_refl i, by omega, by simp, hv, Or.inl (lt_of_not_le hc), fun h => h⟩

/-- C9 amended: for every positive byte count the formatter renders the value
scaled by 1024 into units B/KB/MB/GB/TB with zero decimal places when the
scaled value is at least 10 (not strictly above 10) or at the byte scale, and
one decimal place otherwise; in particular 25 MB renders as 25MB. -/
theorem formatBytes_rendering (b : ℕ) (hb : 0 < b) :
    formatBytes (b : ℚ)
      = some (toFixedQ (formatBytesGo (b : ℚ) 0).1
          (if 10 ≤ (formatBytesGo (b : ℚ) 0).1 ∨ (formatBytesGo (b : ℚ) 0).2 = 0 then 0 else 1)
        ++ sizeUnitNames.getD (formatBytesGo (b : ℚ) 0).2 "TB")
    ∧ (formatBytesGo (b : ℚ) 0).2 ≤ 4
    ∧ (formatBytesGo (b : ℚ) 0).1 * 1024 ^ (formatBytesGo (b : ℚ) 0).2 = (b : ℚ)
    ∧ ((formatBytesGo (b : ℚ) 0).1 < 1024 ∨ (formatBytesGo (b : ℚ) 0).2 = 4)
    ∧ 1 ≤ (formatBytesGo (b : ℚ) 0).1
    ∧ formatBytes ((25 : ℚ) * 1024 * 1024) = some "25MB" := by
  have hv : (0 : ℚ) < (b : ℚ) := by exact_mod_cast hb
  have hgo : formatBytesGo (b : ℚ) 0 = formatBytesLoop 4 (b : ℚ) 0 := rfl
  obtain ⟨_, h2, h3, _, h5, h6⟩ := formatBytesLoop_spec 4 (b : ℚ) 0 hv
  have hne : ¬ ((b : ℚ) = 0) := ne_of_gt hv
  refine ⟨?_, ?_, ?_, ?_, ?_, ?_⟩
  · simp only [formatBytes, if_neg hne]
  · rw [hgo]
    omega
  · rw [hgo]
    simpa using h3
  · rw [hgo]
    simpa using h5
  · rw [hgo]
    exact h6 (by exact_mod_cast hb)
  · with_unfolding_all decide

/-- C9 counterexample: the claim's rendering rule with zero decimals only
strictly above 10 fails at 10240 bytes: the scaled value is exactly 10 and the
code renders 10KB with zero decimal places, not 10.0KB. -/
theorem formatBytes_above_ten_rule_cex :
    ¬ (∀ b : ℕ, 0 < b →
        formatBytes (b : ℚ)
          = some (toFixedQ (formatBytesGo (b : ℚ) 0).1
              (if 10 < (formatBytesGo (b : ℚ) 0).1 ∨ (formatBytesGo (b : ℚ) 0).2 = 0
               then 0 else 1)
            ++ sizeUnitNames.getD (formatBytesGo (b : ℚ) 0).2 "TB")) := by
  intro h
  have h1 := h 10240 (by norm_num)
  rw [show formatBytesGo ((10240 : ℕ) : ℚ) 0 = (10, 1) from by
    simp only [Nat.cast_ofNat]
    with_unfolding_all decide] at h1
  rw [show formatBytes ((10240 : ℕ) : ℚ) = some "10KB" from by
    simp only [Nat.cast_ofNat]
    with_unfolding_all decide] at h1
  revert h1
  with_unfolding_all decide

/-- C9 witness: the rendering characterization at 10240 bytes. -/
theorem formatBytes_rendering_witness :
    formatBytes ((10240 : ℕ) : ℚ)
      = some (toFixedQ (formatBytesGo ((10240 : ℕ) : ℚ) 0).1
          (if 10 ≤ (formatBytesGo ((10240 : ℕ) : ℚ) 0).1
              ∨ (formatBytesGo ((10240 : ℕ) : ℚ) 0).2 = 0 then 0 else 1)
        ++ sizeUnitNames.getD (formatBytesGo ((10240 : ℕ) : ℚ) 0).2 "TB")
    ∧ (formatBytesGo ((10240 : ℕ) : ℚ) 0).2 ≤ 4
    ∧ (formatBytesGo ((10240 : ℕ) : ℚ) 0).1 * 1024 ^ (formatBytesGo ((10240 : ℕ) : ℚ) 0).2
        = ((10240 : ℕ) : ℚ)
    ∧ ((formatBytesGo ((10240 : ℕ) : ℚ) 0).1 < 1024
        ∨ (formatBytesGo ((10240 : ℕ) : ℚ) 0).2 = 4)
    ∧ 1 ≤ (formatBytesGo ((10240 : ℕ) : ℚ) 0).1
    ∧ formatBytes ((25 : ℚ) * 1024 * 1024) = some "25MB" :=
  formatBytes_rendering 10240 (by decide)
